import Mathlib

/-!
Verification development for the real-estate project-financing (PF)
liquidity-stress Monte Carlo engine (`pf_liquidity_risk/modeling/train.py`).

The per-trial engine `simulate_path` is embedded shallowly: money amounts are
exact rationals, the per-trial random draws (revenues, completion delay, the
monthly interest-rate draws and the refinancing LTV draw) are explicit inputs
collected in a `Draws` record, and the month loop becomes structural recursion
on the remaining fuel (`exit_month` months starting at month 1).
-/

/-- Configuration record mirroring the `PFConfig` dataclass.  Distribution
triples are kept as (min, mode, max) tuples; months are naturals. -/
structure PFConfig where
  initial_equity : ℚ
  senior_loan : ℚ
  monthly_fixed_cost : ℚ
  stabilization_revenue_dist : ℚ × ℚ × ℚ
  post_court_revenue_dist : ℚ × ℚ × ℚ
  cap_rate : ℚ
  completion_target_month : ℕ
  court_opening_month : ℕ
  exit_month : ℕ
  pre_completion_rate : ℚ × ℚ × ℚ
  stabilization_rate : ℚ × ℚ × ℚ
  post_court_rate : ℚ × ℚ × ℚ
  capitalized_ratio_construction : ℚ
  capitalized_ratio_stabilization : ℚ
  capitalized_ratio_exit : ℚ
  target_refi_ltv_dist : ℚ × ℚ × ℚ

/-- Default configuration values of the `PFConfig` dataclass. -/
def defaultConfig : PFConfig where
  initial_equity := 5600000000
  senior_loan := 19000000000
  monthly_fixed_cost := 150000000
  stabilization_revenue_dist := (30000000, 100000000, 130000000)
  post_court_revenue_dist := (120000000, 150000000, 200000000)
  cap_rate := 55 / 1000
  completion_target_month := 16
  court_opening_month := 24
  exit_month := 36
  pre_completion_rate := (10 / 100, 14 / 100, 18 / 100)
  stabilization_rate := (8 / 100, 11 / 100, 14 / 100)
  post_court_rate := (5 / 100, 7 / 100, 9 / 100)
  capitalized_ratio_construction := 1
  capitalized_ratio_stabilization := 4 / 10
  capitalized_ratio_exit := 0
  target_refi_ltv_dist := (70 / 100, 80 / 100, 85 / 100)

/-- Per-trial random draws of `simulate_path`: the two sampled phase revenues,
the integer completion delay `int(np.random.triangular(0, 2, 6))`, the annual
interest rate redrawn each month, and the target-LTV draw made at the
refinancing checkpoint. -/
structure Draws where
  sampled_stab_rev : ℚ
  sampled_post_rev : ℚ
  completion_delay : ℕ
  annual_rate : ℕ → ℚ
  ltv_limit : ℚ

/-- The three financing phases of a trial. -/
inductive Phase where
  | construction
  | stabilization
  | exitPhase

deriving instance DecidableEq for Phase

/-- Mirror of `PFInvestmentModel._get_rate_params`. -/
def get_rate_params (cfg : PFConfig) : Phase → ℚ × ℚ × ℚ
  | Phase.construction => cfg.pre_completion_rate
  | Phase.stabilization => cfg.stabilization_rate
  | Phase.exitPhase => cfg.post_court_rate

/-- Mirror of `PFInvestmentModel._get_capitalized_ratio`. -/
def get_capitalized_ratio (cfg : PFConfig) : Phase → ℚ
  | Phase.construction => cfg.capitalized_ratio_construction
  | Phase.stabilization => cfg.capitalized_ratio_stabilization
  | Phase.exitPhase => cfg.capitalized_ratio_exit

/-- The trial's completion month: the configured target plus the sampled
non-negative integer delay. -/
def completion_month (cfg : PFConfig) (d : Draws) : ℕ :=
  cfg.completion_target_month + d.completion_delay

/-- Phase classification of month `m`, exactly as the if/elif/else chain at the
top of the loop body: `m < completion_month` wins first, then
`m < court_opening_month`, else the exit phase. -/
def phaseAt (cfg : PFConfig) (d : Draws) (m : ℕ) : Phase :=
  if m < completion_month cfg d then Phase.construction
  else if m < cfg.court_opening_month then Phase.stabilization
  else Phase.exitPhase

/-- Monthly revenue of month `m`: zero in construction, the trial's sampled
stabilization revenue in stabilization, the sampled post-court revenue in the
exit phase. -/
def revenueAt (cfg : PFConfig) (d : Draws) (m : ℕ) : ℚ :=
  match phaseAt cfg d m with
  | Phase.construction => 0
  | Phase.stabilization => d.sampled_stab_rev
  | Phase.exitPhase => d.sampled_post_rev

/-- Mutable per-trial state: equity buffer and outstanding loan principal. -/
structure MState where
  equity : ℚ
  principal : ℚ

/-- One month of the Cash-Flow Engine (lines 95-118 of the loop body):
interest on current principal at the drawn monthly rate, split into paid and
capitalized parts, capitalization added to principal, then the cash-sweep rule
on the net cash flow. -/
def stepMonth (cfg : PFConfig) (d : Draws) (m : ℕ) (s : MState) : MState :=
  let revenue := revenueAt cfg d m
  let monthly_rate := d.annual_rate m / 12
  let interest := s.principal * monthly_rate
  let cap_ratio := get_capitalized_ratio cfg (phaseAt cfg d m)
  let paid_interest := interest * (1 - cap_ratio)
  let capitalized_interest := interest * cap_ratio
  let principal1 := s.principal + capitalized_interest
  let net_cash_flow := revenue - (cfg.monthly_fixed_cost + paid_interest)
  if 0 < net_cash_flow then
    let principal2 := principal1 - net_cash_flow
    if principal2 < 0 then { equity := s.equity + -principal2, principal := 0 }
    else { equity := s.equity, principal := principal2 }
  else { equity := s.equity + net_cash_flow, principal := principal1 }

/-- State at the end of month `m` (month 0 is the initial state, before the
loop). -/
def stateAfter (cfg : PFConfig) (d : Draws) : ℕ → MState
  | 0 => { equity := cfg.initial_equity, principal := cfg.senior_loan }
  | m + 1 => stepMonth cfg d (m + 1) (stateAfter cfg d m)

/-- Income-approach asset value used at the refinancing checkpoint and at
exit: annualized current-phase revenue over the capitalization rate. -/
def implied_asset_value (cfg : PFConfig) (d : Draws) (m : ℕ) : ℚ :=
  revenueAt cfg d m * 12 / cfg.cap_rate

/-- Maximum refinanceable amount at month `m`: asset value times the trial's
sampled target LTV. -/
def maxRefiAt (cfg : PFConfig) (d : Draws) (m : ℕ) : ℚ :=
  implied_asset_value cfg d m * d.ltv_limit

/-- Exit equity at month `m` for post-step principal `p`: final asset value by
the income approach minus outstanding principal. -/
def exitEquityFrom (cfg : PFConfig) (d : Draws) (m : ℕ) (p : ℚ) : ℚ :=
  implied_asset_value cfg d m - p

/-- Terminal record of one trial.  `exitO` carries the month, the recorded
final equity `max(0, exit_equity)` and the raw exit equity (from which the
recorded IRR is computed). -/
inductive Outcome where
  | default (month : ℕ)
  | refiFail (month : ℕ)
  | exitO (month : ℕ) (final_equity : ℚ) (exit_equity : ℚ)
  | survivedNoExit

deriving instance DecidableEq for Outcome

/-- The month loop of `simulate_path`, by recursion on the remaining number of
months: step the Cash-Flow Engine, then check default, then the refinancing
checkpoint, then the final exit, else continue with the next month. -/
def runAux (cfg : PFConfig) (d : Draws) : ℕ → ℕ → MState → Outcome
  | _, 0, _ => Outcome.survivedNoExit
  | m, f + 1, s =>
    if (stepMonth cfg d m s).equity ≤ 0 then Outcome.default m
    else if m = cfg.court_opening_month ∧
        maxRefiAt cfg d m < (stepMonth cfg d m s).principal then
      Outcome.refiFail m
    else if m = cfg.exit_month then
      Outcome.exitO m (max 0 (exitEquityFrom cfg d m (stepMonth cfg d m s).principal))
        (exitEquityFrom cfg d m (stepMonth cfg d m s).principal)
    else runAux cfg d (m + 1) f (stepMonth cfg d m s)

/-- One whole trial: months 1 through `exit_month` starting from the initial
equity and the senior loan principal. -/
def simulate_path (cfg : PFConfig) (d : Draws) : Outcome :=
  runAux cfg d 1 cfg.exit_month { equity := cfg.initial_equity, principal := cfg.senior_loan }

/-- The IRR recorded for an exit at month `m` with the given raw exit equity:
`(exit_equity / initial_equity) ** (12 / m) - 1` when the exit equity is
positive, and the wipeout value `-1.0` otherwise. -/
noncomputable def recordedIRR (cfg : PFConfig) (m : ℕ) (exit_equity : ℚ) : ℝ :=
  if 0 < exit_equity then
    ((exit_equity : ℝ) / (cfg.initial_equity : ℝ)) ^ ((12 : ℝ) / (m : ℝ)) - 1
  else -1

/-- Interest charged during month `m` along the trial's path. -/
def interestAt (cfg : PFConfig) (d : Draws) : ℕ → ℚ
  | 0 => 0
  | m + 1 => (stateAfter cfg d m).principal * (d.annual_rate (m + 1) / 12)

/-- Capitalized part of the month-`m` interest along the trial's path. -/
def capInterestAt (cfg : PFConfig) (d : Draws) (m : ℕ) : ℚ :=
  interestAt cfg d m * get_capitalized_ratio cfg (phaseAt cfg d m)

/-- Cash-paid part of the month-`m` interest along the trial's path. -/
def paidInterestAt (cfg : PFConfig) (d : Draws) (m : ℕ) : ℚ :=
  interestAt cfg d m * (1 - get_capitalized_ratio cfg (phaseAt cfg d m))

/-- Net cash flow of month `m` along the trial's path. -/
def netCashFlowAt (cfg : PFConfig) (d : Draws) (m : ℕ) : ℚ :=
  revenueAt cfg d m - (cfg.monthly_fixed_cost + paidInterestAt cfg d m)

/-- Month `k` lets the trial continue: positive equity after the step, no
refinancing failure at `k`, and `k` is not the exit month. -/
def contAt (cfg : PFConfig) (d : Draws) (k : ℕ) : Prop :=
  0 < (stateAfter cfg d k).equity ∧
    ¬(k = cfg.court_opening_month ∧
        maxRefiAt cfg d k < (stateAfter cfg d k).principal) ∧
    k ≠ cfg.exit_month

instance (cfg : PFConfig) (d : Draws) (k : ℕ) : Decidable (contAt cfg d k) := by
  unfold contAt
  infer_instance

/-- The terminal record produced when month `j` is the first month that does
not continue: default dominates, then refinancing failure, else the exit
record. -/
def eventAt (cfg : PFConfig) (d : Draws) (j : ℕ) : Outcome :=
  if (stateAfter cfg d j).equity ≤ 0 then Outcome.default j
  else if j = cfg.court_opening_month ∧
      maxRefiAt cfg d j < (stateAfter cfg d j).principal then
    Outcome.refiFail j
  else
    Outcome.exitO j (max 0 (exitEquityFrom cfg d j (stateAfter cfg d j).principal))
      (exitEquityFrom cfg d j (stateAfter cfg d j).principal)

/-! ### Concrete configurations and draws used to evaluate the engine -/

/-- A configuration whose single trial exits at month 1 with positive exit
equity. -/
def wExitCfg : PFConfig where
  initial_equity := 100
  senior_loan := 0
  monthly_fixed_cost := 0
  stabilization_revenue_dist := (0, 0, 0)
  post_court_revenue_dist := (11, 11, 11)
  cap_rate := 1
  completion_target_month := 0
  court_opening_month := 0
  exit_month := 1
  pre_completion_rate := (0, 0, 0)
  stabilization_rate := (0, 0, 0)
  post_court_rate := (0, 0, 0)
  capitalized_ratio_construction := 0
  capitalized_ratio_stabilization := 0
  capitalized_ratio_exit := 0
  target_refi_ltv_dist := (0, 0, 0)

/-- Draws for `wExitCfg`: post-event revenue 11, all rates zero. -/
def wExitD : Draws where
  sampled_stab_rev := 0
  sampled_post_rev := 11
  completion_delay := 0
  annual_rate := fun _ => 0
  ltv_limit := 0

/-- A configuration that burns 60 of equity per month with no revenue and no
debt, so a trial defaults when the equity buffer is exhausted. -/
def wDefCfg : PFConfig where
  initial_equity := 100
  senior_loan := 0
  monthly_fixed_cost := 60
  stabilization_revenue_dist := (0, 0, 0)
  post_court_revenue_dist := (0, 0, 0)
  cap_rate := 1 / 20
  completion_target_month := 1000
  court_opening_month := 0
  exit_month := 10
  pre_completion_rate := (1 / 10, 1 / 10, 1 / 10)
  stabilization_rate := (1 / 10, 1 / 10, 1 / 10)
  post_court_rate := (1 / 10, 1 / 10, 1 / 10)
  capitalized_ratio_construction := 1
  capitalized_ratio_stabilization := 4 / 10
  capitalized_ratio_exit := 0
  target_refi_ltv_dist := (1 / 2, 1 / 2, 1 / 2)

/-- Draws for `wDefCfg`: constant annual rate 1/10 inside every phase support. -/
def wDefD : Draws where
  sampled_stab_rev := 0
  sampled_post_rev := 0
  completion_delay := 0
  annual_rate := fun _ => 1 / 10
  ltv_limit := 1 / 2

/-- A configuration whose trial fails the refinancing check at month 1 while
its equity path first crosses zero only at month 2. -/
def c3cfg : PFConfig where
  initial_equity := 100
  senior_loan := 1000
  monthly_fixed_cost := 60
  stabilization_revenue_dist := (0, 0, 0)
  post_court_revenue_dist := (0, 0, 0)
  cap_rate := 1
  completion_target_month := 0
  court_opening_month := 1
  exit_month := 3
  pre_completion_rate := (0, 0, 0)
  stabilization_rate := (0, 0, 0)
  post_court_rate := (0, 0, 0)
  capitalized_ratio_construction := 0
  capitalized_ratio_stabilization := 0
  capitalized_ratio_exit := 0
  target_refi_ltv_dist := (0, 0, 0)

/-- Draws for `c3cfg`: zero revenue, zero rates, zero LTV. -/
def c3d : Draws where
  sampled_stab_rev := 0
  sampled_post_rev := 0
  completion_delay := 0
  annual_rate := fun _ => 0
  ltv_limit := 0

/-- A configuration with valid strictly increasing milestones whose sampled
completion month (23 + 2) exceeds the refinancing checkpoint 24. -/
def c4cfg : PFConfig where
  initial_equity := 100
  senior_loan := 0
  monthly_fixed_cost := 0
  stabilization_revenue_dist := (3, 3, 3)
  post_court_revenue_dist := (5, 5, 5)
  cap_rate := 1
  completion_target_month := 23
  court_opening_month := 24
  exit_month := 36
  pre_completion_rate := (0, 0, 0)
  stabilization_rate := (0, 0, 0)
  post_court_rate := (0, 0, 0)
  capitalized_ratio_construction := 0
  capitalized_ratio_stabilization := 0
  capitalized_ratio_exit := 0
  target_refi_ltv_dist := (0, 0, 0)

/-- Draws for `c4cfg`: completion delay 2, so the completion month is 25. -/
def c4d : Draws where
  sampled_stab_rev := 3
  sampled_post_rev := 5
  completion_delay := 2
  annual_rate := fun _ => 0
  ltv_limit := 0

/-- A malformed configuration: the completion target (30) is later than the
refinancing checkpoint (24), violating the strictly-increasing-milestones
invariant. -/
def c6cfg : PFConfig where
  initial_equity := 1
  senior_loan := 0
  monthly_fixed_cost := 10
  stabilization_revenue_dist := (0, 0, 0)
  post_court_revenue_dist := (0, 0, 0)
  cap_rate := 1 / 20
  completion_target_month := 30
  court_opening_month := 24
  exit_month := 36
  pre_completion_rate := (0, 0, 0)
  stabilization_rate := (0, 0, 0)
  post_court_rate := (0, 0, 0)
  capitalized_ratio_construction := 0
  capitalized_ratio_stabilization := 0
  capitalized_ratio_exit := 0
  target_refi_ltv_dist := (0, 0, 0)

/-- Draws for `c6cfg`. -/
def c6d : Draws where
  sampled_stab_rev := 0
  sampled_post_rev := 0
  completion_delay := 0
  annual_rate := fun _ => 0
  ltv_limit := 0

/-- The spec's concrete deterministic scenario: equity 1,000,000, loan
10,000,000, fixed cost 50,000 per month, a single (construction) phase at a
fixed 12% annual rate fully capitalized, zero revenue, no refinancing
checkpoint, and the stated `exit_month = 12`. -/
def c7cfg : PFConfig where
  initial_equity := 1000000
  senior_loan := 10000000
  monthly_fixed_cost := 50000
  stabilization_revenue_dist := (0, 0, 0)
  post_court_revenue_dist := (0, 0, 0)
  cap_rate := 55 / 1000
  completion_target_month := 1000
  court_opening_month := 0
  exit_month := 12
  pre_completion_rate := (12 / 100, 12 / 100, 12 / 100)
  stabilization_rate := (12 / 100, 12 / 100, 12 / 100)
  post_court_rate := (12 / 100, 12 / 100, 12 / 100)
  capitalized_ratio_construction := 1
  capitalized_ratio_stabilization := 1
  capitalized_ratio_exit := 1
  target_refi_ltv_dist := (0, 0, 0)

/-- Draws for `c7cfg`: the point-mass rate 12% every month. -/
def c7d : Draws where
  sampled_stab_rev := 0
  sampled_post_rev := 0
  completion_delay := 0
  annual_rate := fun _ => 12 / 100
  ltv_limit := 0

/-- Raw exit equity produced by the spec scenario at month 12: minus the
compounded principal. -/
def c7ee : ℚ := -(10000000 * (101 / 100 : ℚ) ^ 12)

/-- The spec scenario with the horizon extended past month 20, so the claimed
default month is reachable. -/
def c7cfgAmended : PFConfig := { c7cfg with exit_month := 36 }

/-! ### Basic unfolding lemmas -/

theorem runAux_zero_eq (cfg : PFConfig) (d : Draws) (m : ℕ) (s : MState) :
    runAux cfg d m 0 s = Outcome.survivedNoExit := rfl

theorem runAux_succ_eq (cfg : PFConfig) (d : Draws) (m f : ℕ) (s : MState) :
    runAux cfg d m (f + 1) s =
      if (stepMonth cfg d m s).equity ≤ 0 then Outcome.default m
      else if m = cfg.court_opening_month ∧
          maxRefiAt cfg d m < (stepMonth cfg d m s).principal then
        Outcome.refiFail m
      else if m = cfg.exit_month then
        Outcome.exitO m (max 0 (exitEquityFrom cfg d m (stepMonth cfg d m s).principal))
          (exitEquityFrom cfg d m (stepMonth cfg d m s).principal)
      else runAux cfg d (m + 1) f (stepMonth cfg d m s) := rfl

theorem stateAfter_succ (cfg : PFConfig) (d : Draws) (m : ℕ) :
    stateAfter cfg d (m + 1) = stepMonth cfg d (m + 1) (stateAfter cfg d m) := rfl

theorem simulate_path_eq (cfg : PFConfig) (d : Draws) :
    simulate_path cfg d = runAux cfg d (0 + 1) cfg.exit_month (stateAfter cfg d 0) := rfl

/-! ### First-stopping-month characterization of the month loop -/

theorem runAux_eq_eventAt (cfg : PFConfig) (d : Draws) :
    ∀ f c j, c < j → j ≤ c + f → (∀ k, k < j → c < k → contAt cfg d k) →
      ¬contAt cfg d j →
      runAux cfg d (c + 1) f (stateAfter cfg d c) = eventAt cfg d j := by
  intro f
  induction f with
  | zero => intro c j h1 h2 _ _; omega
  | succ f ih =>
      intro c j h1 h2 hall hnc
      rw [runAux_succ_eq, ← stateAfter_succ]
      rcases Nat.lt_or_ge (c + 1) j with hlt | hge
      · obtain ⟨hE, hR, hX⟩ := hall (c + 1) hlt (Nat.lt_succ_self c)
        rw [if_neg (not_le.mpr hE), if_neg hR, if_neg hX]
        exact ih (c + 1) j hlt (by omega) (fun k hk1 hk2 => hall k hk1 (by omega)) hnc
      · have hj : j = c + 1 := by omega
        subst hj
        by_cases hE : (stateAfter cfg d (c + 1)).equity ≤ 0
        · rw [if_pos hE]
          unfold eventAt
          rw [if_pos hE]
        · rw [if_neg hE]
          by_cases hR : c + 1 = cfg.court_opening_month ∧
              maxRefiAt cfg d (c + 1) < (stateAfter cfg d (c + 1)).principal
          · rw [if_pos hR]
            unfold eventAt
            rw [if_neg hE, if_pos hR]
          · have hX : c + 1 = cfg.exit_month := by
              by_contra hX
              exact hnc ⟨not_le.mp hE, hR, hX⟩
            rw [if_neg hR, if_pos hX]
            unfold eventAt
            rw [if_neg hE, if_neg hR]

theorem runAux_eq_survived (cfg : PFConfig) (d : Draws) :
    ∀ f c, (∀ k, k ≤ c + f → c < k → contAt cfg d k) →
      runAux cfg d (c + 1) f (stateAfter cfg d c) = Outcome.survivedNoExit := by
  intro f
  induction f with
  | zero => intro c _; rfl
  | succ f ih =>
      intro c hall
      obtain ⟨hE, hR, hX⟩ := hall (c + 1) (by omega) (by omega)
      rw [runAux_succ_eq, ← stateAfter_succ, if_neg (not_le.mpr hE), if_neg hR, if_neg hX]
      exact ih (c + 1) (fun k hk1 hk2 => hall k (by omega) (by omega))

theorem exists_first_stop (cfg : PFConfig) (d : Draws) :
    ∀ f c, (∀ k, k ≤ c + f → c < k → contAt cfg d k) ∨
      ∃ j, c < j ∧ j ≤ c + f ∧ ¬contAt cfg d j ∧
        (∀ k, k < j → c < k → contAt cfg d k) := by
  intro f
  induction f with
  | zero =>
      intro c
      left
      intro k hk1 hk2
      omega
  | succ f ih =>
      intro c
      rcases ih c with hall | ⟨j, hj1, hj2, hj3, hj4⟩
      · by_cases hc : contAt cfg d (c + f + 1)
        · left
          intro k hk1 hk2
          rcases Nat.lt_or_ge k (c + f + 1) with h | h
          · exact hall k (by omega) hk2
          · have hk : k = c + f + 1 := by omega
            exact hk ▸ hc
        · right
          exact ⟨c + f + 1, by omega, by omega, hc, fun k hk1 hk2 => hall k (by omega) hk2⟩
      · right
        exact ⟨j, hj1, by omega, hj3, hj4⟩

/-! ### Outcome characterizations of a whole trial -/

theorem simulate_default_iff (cfg : PFConfig) (d : Draws) (j : ℕ) :
    simulate_path cfg d = Outcome.default j ↔
      1 ≤ j ∧ j ≤ cfg.exit_month ∧ (∀ k, k < j → 1 ≤ k → contAt cfg d k) ∧
        (stateAfter cfg d j).equity ≤ 0 := by
  constructor
  · intro h
    rw [simulate_path_eq] at h
    rcases exists_first_stop cfg d cfg.exit_month 0 with hall | ⟨j0, h1, h2, h3, h4⟩
    · rw [runAux_eq_survived cfg d cfg.exit_month 0 hall] at h
      exact absurd h (by simp)
    · rw [runAux_eq_eventAt cfg d cfg.exit_month 0 j0 h1 (by omega) h4 h3] at h
      unfold eventAt at h
      split_ifs at h with hE
      injection h with hj
      subst hj
      exact ⟨by omega, by omega, fun k hk1 hk2 => h4 k hk1 (by omega), hE⟩
  · rintro ⟨hj1, hj2, hcont, hE⟩
    have hnc : ¬contAt cfg d j := fun hc => absurd hE (not_le.mpr hc.1)
    rw [simulate_path_eq,
      runAux_eq_eventAt cfg d cfg.exit_month 0 j (by omega) (by omega)
        (fun k hk1 hk2 => hcont k hk1 (by omega)) hnc]
    unfold eventAt
    rw [if_pos hE]

theorem simulate_refi_iff (cfg : PFConfig) (d : Draws) (j : ℕ) :
    simulate_path cfg d = Outcome.refiFail j ↔
      1 ≤ j ∧ j ≤ cfg.exit_month ∧ (∀ k, k < j → 1 ≤ k → contAt cfg d k) ∧
        0 < (stateAfter cfg d j).equity ∧ j = cfg.court_opening_month ∧
        maxRefiAt cfg d j < (stateAfter cfg d j).principal := by
  constructor
  · intro h
    rw [simulate_path_eq] at h
    rcases exists_first_stop cfg d cfg.exit_month 0 with hall | ⟨j0, h1, h2, h3, h4⟩
    · rw [runAux_eq_survived cfg d cfg.exit_month 0 hall] at h
      exact absurd h (by simp)
    · rw [runAux_eq_eventAt cfg d cfg.exit_month 0 j0 h1 (by omega) h4 h3] at h
      unfold eventAt at h
      split_ifs at h with hE hR
      injection h with hj
      subst hj
      exact ⟨by omega, by omega, fun k hk1 hk2 => h4 k hk1 (by omega),
        not_le.mp hE, hR.1, hR.2⟩
  · rintro ⟨hj1, hj2, hcont, hE, hcourt, hP⟩
    have hnc : ¬contAt cfg d j := fun hc => hc.2.1 ⟨hcourt, hP⟩
    rw [simulate_path_eq,
      runAux_eq_eventAt cfg d cfg.exit_month 0 j (by omega) (by omega)
        (fun k hk1 hk2 => hcont k hk1 (by omega)) hnc]
    unfold eventAt
    rw [if_neg (not_le.mpr hE), if_pos ⟨hcourt, hP⟩]

theorem simulate_exit_iff (cfg : PFConfig) (d : Draws) (j : ℕ) (fe ee : ℚ) :
    simulate_path cfg d = Outcome.exitO j fe ee ↔
      1 ≤ j ∧ j = cfg.exit_month ∧ (∀ k, k < j → 1 ≤ k → contAt cfg d k) ∧
        0 < (stateAfter cfg d j).equity ∧
        ¬(j = cfg.court_opening_month ∧
            maxRefiAt cfg d j < (stateAfter cfg d j).principal) ∧
        ee = exitEquityFrom cfg d j (stateAfter cfg d j).principal ∧
        fe = max 0 ee := by
  constructor
  · intro h
    rw [simulate_path_eq] at h
    rcases exists_first_stop cfg d cfg.exit_month 0 with hall | ⟨j0, h1, h2, h3, h4⟩
    · rw [runAux_eq_survived cfg d cfg.exit_month 0 hall] at h
      exact absurd h (by simp)
    · rw [runAux_eq_eventAt cfg d cfg.exit_month 0 j0 h1 (by omega) h4 h3] at h
      unfold eventAt at h
      split_ifs at h with hE hR
      injection h with hj hfe hee
      subst hj
      have hX : j0 = cfg.exit_month := by
        by_contra hX
        exact h3 ⟨not_le.mp hE, hR, hX⟩
      refine ⟨by omega, hX, fun k hk1 hk2 => h4 k hk1 (by omega),
        not_le.mp hE, hR, hee.symm, ?_⟩
      rw [← hfe, hee]
  · rintro ⟨hj1, hX, hcont, hE, hR, hee, hfe⟩
    subst hfe
    subst hee
    have hnc : ¬contAt cfg d j := fun hc => hc.2.2 hX
    rw [simulate_path_eq,
      runAux_eq_eventAt cfg d cfg.exit_month 0 j (by omega) (by omega)
        (fun k hk1 hk2 => hcont k hk1 (by omega)) hnc]
    unfold eventAt
    rw [if_neg (not_le.mpr hE), if_neg hR]

theorem simulate_survived_iff (cfg : PFConfig) (d : Draws) :
    simulate_path cfg d = Outcome.survivedNoExit ↔ cfg.exit_month = 0 := by
  constructor
  · intro h
    by_contra hx
    rcases exists_first_stop cfg d cfg.exit_month 0 with hall | ⟨j0, h1, h2, h3, h4⟩
    · exact (hall cfg.exit_month (by omega) (by omega)).2.2 rfl
    · rw [simulate_path_eq,
        runAux_eq_eventAt cfg d cfg.exit_month 0 j0 h1 (by omega) h4 h3] at h
      unfold eventAt at h
      split_ifs at h
  · intro h
    rw [simulate_path_eq, h]
    rfl

/-! ### The initial equity only shifts the equity component of the state -/

theorem stateAfter_initial_equity (cfg : PFConfig) (d : Draws) (e1 e2 : ℚ) :
    ∀ m, (stateAfter { cfg with initial_equity := e2 } d m).principal
        = (stateAfter { cfg with initial_equity := e1 } d m).principal ∧
      (stateAfter { cfg with initial_equity := e2 } d m).equity
        = (stateAfter { cfg with initial_equity := e1 } d m).equity + (e2 - e1) := by
  intro m
  induction m with
  | zero =>
      refine ⟨rfl, ?_⟩
      show e2 = e1 + (e2 - e1)
      ring
  | succ m ih =>
      obtain ⟨hp, he⟩ := ih
      have hrev : revenueAt { cfg with initial_equity := e2 } d (m + 1)
          = revenueAt { cfg with initial_equity := e1 } d (m + 1) := rfl
      have hcapr : get_capitalized_ratio { cfg with initial_equity := e2 }
            (phaseAt { cfg with initial_equity := e2 } d (m + 1))
          = get_capitalized_ratio { cfg with initial_equity := e1 }
            (phaseAt { cfg with initial_equity := e1 } d (m + 1)) := rfl
      rw [stateAfter_succ, stateAfter_succ]
      simp only [stepMonth, hrev, hcapr, hp, he]
      split_ifs <;> constructor <;> dsimp <;> ring

/-! ### Cash-Flow Engine step preserves principal nonnegativity -/

theorem stepMonth_principal_nonneg (cfg : PFConfig) (d : Draws) (m : ℕ) (s : MState)
    (hp : 0 ≤ s.principal) (hr : 0 ≤ d.annual_rate m)
    (hc : 0 ≤ get_capitalized_ratio cfg (phaseAt cfg d m)) :
    0 ≤ (stepMonth cfg d m s).principal := by
  have h12 : (0 : ℚ) ≤ d.annual_rate m / 12 := div_nonneg hr (by norm_num)
  have hcap : 0 ≤ s.principal * (d.annual_rate m / 12)
      * get_capitalized_ratio cfg (phaseAt cfg d m) :=
    mul_nonneg (mul_nonneg hp h12) hc
  simp only [stepMonth]
  split_ifs with h1 h2
  · simp
  · dsimp
    exact not_lt.mp h2
  · dsimp
    linarith

/-! ### Claim theorems -/

/-- C1: whenever a trial terminates with status `exit` at month `j` carrying
final equity `fe` and raw exit equity `ee`, the exit happens exactly at the
configured exit month, `ee` is the income-approach asset value minus the
post-step principal, the recorded final equity is `max 0 ee`, and the recorded
IRR is `(ee / initial_equity) ^ (12 / j) - 1` exactly when `ee > 0` and
exactly `-1.0` when `ee ≤ 0`. -/
theorem C1_exit_record (cfg : PFConfig) (d : Draws) (j : ℕ) (fe ee : ℚ)
    (h : simulate_path cfg d = Outcome.exitO j fe ee) :
    j = cfg.exit_month ∧
    ee = exitEquityFrom cfg d j (stateAfter cfg d j).principal ∧
    fe = max 0 ee ∧
    (0 < ee → recordedIRR cfg j ee
      = ((ee : ℝ) / (cfg.initial_equity : ℝ)) ^ ((12 : ℝ) / (j : ℝ)) - 1) ∧
    (ee ≤ 0 → recordedIRR cfg j ee = -1) := by
  obtain ⟨h1, hX, hcont, hE, hR, hee, hfe⟩ := (simulate_exit_iff cfg d j fe ee).mp h
  refine ⟨hX, hee, hfe, ?_, ?_⟩
  · intro hpos
    unfold recordedIRR
    rw [if_pos hpos]
  · intro hneg
    unfold recordedIRR
    rw [if_neg (not_lt.mpr hneg)]

set_option maxRecDepth 100000 in
unseal Rat.add Rat.mul Rat.sub Rat.inv in
/-- Witness for C1: the trial of `wExitCfg` exits at month 1 recording final
equity 132 and raw exit equity 132. -/
theorem C1_exit_record_witness :
    1 = wExitCfg.exit_month ∧
    (132 : ℚ) = exitEquityFrom wExitCfg wExitD 1 (stateAfter wExitCfg wExitD 1).principal ∧
    (132 : ℚ) = max 0 (132 : ℚ) ∧
    (0 < (132 : ℚ) → recordedIRR wExitCfg 1 132
      = (((132 : ℚ) : ℝ) / ((wExitCfg.initial_equity : ℚ) : ℝ)) ^ ((12 : ℝ) / ((1 : ℕ) : ℝ)) - 1) ∧
    ((132 : ℚ) ≤ 0 → recordedIRR wExitCfg 1 132 = -1) :=
  C1_exit_record wExitCfg wExitD 1 132 132 (by decide)

/-- C2: under the configuration invariants (nonnegative senior loan,
capitalized-interest ratios within [0, 1], nonnegative interest-rate lower
bounds and rate draws inside the phase's triangular support), the principal is
nonnegative after every month of the trial, and the capitalized interest added
each month is nonnegative (capitalization only increases principal). -/
theorem C2_principal_nonneg (cfg : PFConfig) (d : Draws)
    (hloan : 0 ≤ cfg.senior_loan)
    (hcap : ∀ ph : Phase, 0 ≤ get_capitalized_ratio cfg ph ∧
      get_capitalized_ratio cfg ph ≤ 1)
    (hmin : ∀ ph : Phase, 0 ≤ (get_rate_params cfg ph).1)
    (hdraw : ∀ m : ℕ, (get_rate_params cfg (phaseAt cfg d m)).1 ≤ d.annual_rate m ∧
      d.annual_rate m ≤ (get_rate_params cfg (phaseAt cfg d m)).2.2) :
    ∀ m : ℕ, 0 ≤ (stateAfter cfg d m).principal ∧ 0 ≤ capInterestAt cfg d m := by
  have hr : ∀ m, 0 ≤ d.annual_rate m := fun m => le_trans (hmin _) (hdraw m).1
  have hP : ∀ m, 0 ≤ (stateAfter cfg d m).principal := by
    intro m
    induction m with
    | zero => exact hloan
    | succ m ih =>
        rw [stateAfter_succ]
        exact stepMonth_principal_nonneg cfg d (m + 1) _ ih (hr (m + 1)) (hcap _).1
  intro m
  refine ⟨hP m, ?_⟩
  cases m with
  | zero => simp [capInterestAt, interestAt]
  | succ m =>
      have h12 : (0 : ℚ) ≤ d.annual_rate (m + 1) / 12 :=
        div_nonneg (hr (m + 1)) (by norm_num)
      simp only [capInterestAt, interestAt]
      exact mul_nonneg (mul_nonneg (hP m) h12) (hcap _).1

set_option maxRecDepth 100000 in
unseal Rat.add Rat.mul Rat.sub Rat.inv in
/-- Witness for C2 at the concrete configuration `wDefCfg`, month 3. -/
theorem C2_principal_nonneg_witness :
    0 ≤ (stateAfter wDefCfg wDefD 3).principal ∧ 0 ≤ capInterestAt wDefCfg wDefD 3 :=
  C2_principal_nonneg wDefCfg wDefD (by norm_num [wDefCfg])
    (by intro ph; cases ph <;> constructor <;> norm_num [get_capitalized_ratio, wDefCfg])
    (by intro ph; cases ph <;> norm_num [get_rate_params, wDefCfg])
    (by
      intro m
      cases h : phaseAt wDefCfg wDefD m <;>
        constructor <;> norm_num [get_rate_params, wDefCfg, wDefD])
    3

set_option maxRecDepth 100000 in
unseal Rat.add Rat.mul Rat.sub Rat.inv in
/-- C3 counterexample: the trial of `c3cfg` has its first equity crossing at
month 2 (equity is positive at month 1 and nonpositive at month 2, with
2 within the horizon), yet it does not terminate with status `default` at
month 2 — the refinancing check already failed at the month-1 checkpoint.
The claimed "if and only if" is therefore false as stated. -/
theorem C3_counterexample :
    simulate_path c3cfg c3d = Outcome.refiFail 1 ∧
    (stateAfter c3cfg c3d 2).equity ≤ 0 ∧
    0 < (stateAfter c3cfg c3d 1).equity ∧
    2 ≤ c3cfg.exit_month ∧
    ¬simulate_path c3cfg c3d = Outcome.default 2 := by decide

/-- C3 amended: a trial terminates with status `default` at month `j` if and
only if equity is nonpositive at the end of month `j`, positive at the end of
every earlier month, `j` is within the horizon, and additionally the
refinancing check did not fail at a checkpoint month before `j`; moreover the
default check dominates within a month: a trial recording `refi_fail` or
`exit` at a month has positive equity at that month's end. -/
theorem C3_default_first_crossing (cfg : PFConfig) (d : Draws) :
    (∀ j, simulate_path cfg d = Outcome.default j ↔
      1 ≤ j ∧ j ≤ cfg.exit_month ∧ (stateAfter cfg d j).equity ≤ 0 ∧
      (∀ k, k < j → 1 ≤ k → 0 < (stateAfter cfg d k).equity) ∧
      (∀ k, k < j → 1 ≤ k → ¬(k = cfg.court_opening_month ∧
        maxRefiAt cfg d k < (stateAfter cfg d k).principal))) ∧
    (∀ j, simulate_path cfg d = Outcome.refiFail j →
      0 < (stateAfter cfg d j).equity) ∧
    (∀ j fe ee, simulate_path cfg d = Outcome.exitO j fe ee →
      0 < (stateAfter cfg d j).equity) := by
  refine ⟨fun j => ?_, fun j h => ?_, fun j fe ee h => ?_⟩
  · rw [simulate_default_iff]
    constructor
    · rintro ⟨h1, h2, hcont, hE⟩
      exact ⟨h1, h2, hE, fun k hk1 hk2 => (hcont k hk1 hk2).1,
        fun k hk1 hk2 => (hcont k hk1 hk2).2.1⟩
    · rintro ⟨h1, h2, hE, hpos, hrefi⟩
      exact ⟨h1, h2,
        fun k hk1 hk2 => ⟨hpos k hk1 hk2, hrefi k hk1 hk2, by omega⟩, hE⟩
  · exact ((simulate_refi_iff cfg d j).mp h).2.2.2.1
  · exact ((simulate_exit_iff cfg d j fe ee).mp h).2.2.2.1

set_option maxRecDepth 100000 in
unseal Rat.add Rat.mul Rat.sub Rat.inv in
/-- Witness for the amended C3: the trial of `wDefCfg` defaults at month 2,
derived from the first-crossing characterization. -/
theorem C3_default_first_crossing_witness :
    simulate_path wDefCfg wDefD = Outcome.default 2 :=
  ((C3_default_first_crossing wDefCfg wDefD).1 2).mpr (by decide)

set_option maxRecDepth 100000 in
unseal Rat.add Rat.mul Rat.sub Rat.inv in
/-- C4 counterexample: under `c4cfg` (strictly increasing milestones
23 < 24 < 36) with sampled completion delay 2, month 24 is at the refinancing
checkpoint yet is classified `construction` with zero revenue, not exit-phase
with the sampled post-event revenue. -/
theorem C4_counterexample :
    c4cfg.completion_target_month < c4cfg.court_opening_month ∧
    c4cfg.court_opening_month < c4cfg.exit_month ∧
    c4cfg.court_opening_month ≤ 24 ∧
    phaseAt c4cfg c4d 24 = Phase.construction ∧
    phaseAt c4cfg c4d 24 ≠ Phase.exitPhase ∧
    revenueAt c4cfg c4d 24 = 0 ∧
    c4d.sampled_post_rev = 5 := by decide

/-- C4 amended: the classification is: `m < completion` gives construction
with zero revenue (this branch wins even when `m` is at or past the
checkpoint); `completion ≤ m < checkpoint` gives stabilization with the
sampled stabilization revenue; and `m ≥ checkpoint` gives the exit phase with
the sampled post-event revenue only when additionally `m ≥ completion`. -/
theorem C4_phase_policy (cfg : PFConfig) (d : Draws) (m : ℕ) :
    (m < completion_month cfg d →
      phaseAt cfg d m = Phase.construction ∧ revenueAt cfg d m = 0) ∧
    (completion_month cfg d ≤ m → m < cfg.court_opening_month →
      phaseAt cfg d m = Phase.stabilization ∧
      revenueAt cfg d m = d.sampled_stab_rev) ∧
    (cfg.court_opening_month ≤ m → completion_month cfg d ≤ m →
      phaseAt cfg d m = Phase.exitPhase ∧
      revenueAt cfg d m = d.sampled_post_rev) := by
  refine ⟨fun h => ?_, fun h1 h2 => ?_, fun h1 h2 => ?_⟩
  · have hp : phaseAt cfg d m = Phase.construction := by
      unfold phaseAt
      rw [if_pos h]
    exact ⟨hp, by unfold revenueAt; rw [hp]⟩
  · have hp : phaseAt cfg d m = Phase.stabilization := by
      unfold phaseAt
      rw [if_neg (not_lt.mpr h1), if_pos h2]
    exact ⟨hp, by unfold revenueAt; rw [hp]⟩
  · have hp : phaseAt cfg d m = Phase.exitPhase := by
      unfold phaseAt
      rw [if_neg (not_lt.mpr h2), if_neg (not_lt.mpr h1)]
    exact ⟨hp, by unfold revenueAt; rw [hp]⟩

/-- Witness for the amended C4: month 1 of `wExitCfg` is at or past both the
checkpoint and the completion month and is classified exit-phase with the
sampled post-event revenue. -/
theorem C4_phase_policy_witness :
    phaseAt wExitCfg wExitD 1 = Phase.exitPhase ∧
    revenueAt wExitCfg wExitD 1 = wExitD.sampled_post_rev :=
  (C4_phase_policy wExitCfg wExitD 1).2.2 (by decide) (by decide)

/-- C5: a trial terminates with status `refi_fail` at month `j` exactly when
`j` is the refinancing checkpoint month, the trial is still alive there (every
month up to `j` continued and equity is positive at the end of month `j`), and
the post-step principal exceeds `max_refinanceable`; the check fires at no
other month, and `max_refinanceable` is the income-approach asset value
`(12 x current-phase revenue) / cap_rate` times the sampled target LTV. -/
theorem C5_refi_checkpoint (cfg : PFConfig) (d : Draws) (j : ℕ) :
    (simulate_path cfg d = Outcome.refiFail j ↔
      j = cfg.court_opening_month ∧ 1 ≤ j ∧ j ≤ cfg.exit_month ∧
      (∀ k, k < j → 1 ≤ k → contAt cfg d k) ∧
      0 < (stateAfter cfg d j).equity ∧
      maxRefiAt cfg d j < (stateAfter cfg d j).principal) ∧
    maxRefiAt cfg d j = revenueAt cfg d j * 12 / cfg.cap_rate * d.ltv_limit := by
  constructor
  · rw [simulate_refi_iff]
    constructor
    · rintro ⟨h1, h2, h3, h4, h5, h6⟩
      exact ⟨h5, h1, h2, h3, h4, h6⟩
    · rintro ⟨h5, h1, h2, h3, h4, h6⟩
      exact ⟨h1, h2, h3, h4, h5, h6⟩
  · rfl

set_option maxRecDepth 100000 in
unseal Rat.add Rat.mul Rat.sub Rat.inv in
/-- Witness for C5: the trial of `c3cfg` fails refinancing at its checkpoint
month 1, derived from the characterization. -/
theorem C5_refi_checkpoint_witness :
    simulate_path c3cfg c3d = Outcome.refiFail 1 :=
  ((C5_refi_checkpoint c3cfg c3d 1).1).mpr (by decide)

set_option maxRecDepth 100000 in
unseal Rat.add Rat.mul Rat.sub Rat.inv in
/-- C6: the source performs no configuration validation at all.  The malformed
configuration `c6cfg` violates the strictly-increasing-milestones invariant
(completion target 30 is past the checkpoint 24), yet its trial is not
rejected: the simulation executes a Cash-Flow Engine step and returns a
normal terminal record. -/
theorem C6_no_config_validation :
    ¬(c6cfg.completion_target_month < c6cfg.court_opening_month ∧
      c6cfg.court_opening_month < c6cfg.exit_month) ∧
    simulate_path c6cfg c6d = Outcome.default 1 := by decide

set_option maxRecDepth 100000 in
unseal Rat.add Rat.mul Rat.sub Rat.inv in
/-- C7 counterexample: in the spec's scenario as stated (`exit_month = 12`),
the month loop ends at month 12 while equity is still positive, so the trial
terminates with status `exit` at month 12 (a wipeout with negative raw exit
equity), and never reaches the claimed default at month 20. -/
theorem C7_counterexample :
    c7cfg.exit_month = 12 ∧
    simulate_path c7cfg c7d = Outcome.exitO 12 0 c7ee ∧
    c7ee < 0 ∧
    ¬simulate_path c7cfg c7d = Outcome.default 20 := by decide

set_option maxRecDepth 200000 in
unseal Rat.add Rat.mul Rat.sub Rat.inv in
/-- C7 amended: in the same scenario with the horizon extended past month 20
(`exit_month = 36`), equity decreases by exactly 50,000 each month (only the
fixed cost, since interest is fully capitalized) and the trial terminates with
status `default` at month 20. -/
theorem C7_scenario_default_at_20 :
    (∀ m, m ≤ 20 → (stateAfter c7cfgAmended c7d m).equity
      = 1000000 - 50000 * (m : ℚ)) ∧
    simulate_path c7cfgAmended c7d = Outcome.default 20 := by decide

/-- C8: holding the whole draw sequence fixed and raising only the initial
equity cannot make default come earlier: if the trial with the larger initial
equity `e2` defaults at month `m2`, the trial with the smaller initial equity
`e1` defaults at some month `m1 ≤ m2` (so the larger-equity trial never
defaults earlier than the smaller-equity one, and may not default at all). -/
theorem C8_initial_equity_monotone (cfg : PFConfig) (d : Draws) (e1 e2 : ℚ)
    (h12 : e1 ≤ e2) (m2 : ℕ)
    (h2 : simulate_path { cfg with initial_equity := e2 } d = Outcome.default m2) :
    ∃ m1, m1 ≤ m2 ∧
      simulate_path { cfg with initial_equity := e1 } d = Outcome.default m1 := by
  obtain ⟨h21, h22, h2cont, h2E⟩ := (simulate_default_iff _ d m2).mp h2
  have hE1m2 : (stateAfter { cfg with initial_equity := e1 } d m2).equity ≤ 0 := by
    have hs := (stateAfter_initial_equity cfg d e1 e2 m2).2
    linarith
  have hex : ∃ k, 1 ≤ k ∧ (stateAfter { cfg with initial_equity := e1 } d k).equity ≤ 0 :=
    ⟨m2, h21, hE1m2⟩
  have hfind : Nat.find hex ≤ m2 := Nat.find_min' hex ⟨h21, hE1m2⟩
  obtain ⟨hm1, hm1E⟩ := Nat.find_spec hex
  refine ⟨Nat.find hex, hfind, ?_⟩
  rw [simulate_default_iff]
  refine ⟨hm1, le_trans hfind h22, ?_, hm1E⟩
  intro k hk1 hk2
  have hklt : k < m2 := lt_of_lt_of_le hk1 hfind
  obtain ⟨hpos2, hR2, hX2⟩ := h2cont k hklt hk2
  refine ⟨?_, ?_, hX2⟩
  · by_contra hneg
    exact Nat.find_min hex hk1 ⟨hk2, not_lt.mp hneg⟩
  · intro hcon
    apply hR2
    refine ⟨hcon.1, ?_⟩
    have hP := (stateAfter_initial_equity cfg d e1 e2 k).1
    rw [hP]
    exact hcon.2

set_option maxRecDepth 100000 in
unseal Rat.add Rat.mul Rat.sub Rat.inv in
/-- Witness for C8: with the draws of `wDefD`, initial equity 150 defaults at
month 3, and the theorem yields a default at some month at most 3 for initial
equity 100. -/
theorem C8_initial_equity_monotone_witness :
    ∃ m1, m1 ≤ 3 ∧ simulate_path { wDefCfg with initial_equity := 100 } wDefD
      = Outcome.default m1 :=
  C8_initial_equity_monotone wDefCfg wDefD 100 150 (by norm_num) 3 (by decide)

/-- C9: a trial returns `survived_no_exit` exactly when the horizon is empty
(`exit_month < 1`, so the month loop runs zero iterations); when the horizon
is nonempty (and the checkpoint is within it, as the timeline invariant
demands) the trial terminates with `default`, `refi_fail` or `exit` at some
month between 1 and `exit_month`. -/
theorem C9_termination (cfg : PFConfig) (d : Draws) :
    (simulate_path cfg d = Outcome.survivedNoExit ↔ cfg.exit_month < 1) ∧
    (1 ≤ cfg.exit_month → cfg.court_opening_month ≤ cfg.exit_month →
      ∃ j, 1 ≤ j ∧ j ≤ cfg.exit_month ∧
        (simulate_path cfg d = Outcome.default j ∨
         simulate_path cfg d = Outcome.refiFail j ∨
         ∃ fe ee, simulate_path cfg d = Outcome.exitO j fe ee)) := by
  constructor
  · rw [simulate_survived_iff]
    omega
  · intro h1 _
    rcases exists_first_stop cfg d cfg.exit_month 0 with hall | ⟨j0, hj1, hj2, hj3, hj4⟩
    · exact absurd rfl (hall cfg.exit_month (by omega) (by omega)).2.2
    · have he := runAux_eq_eventAt cfg d cfg.exit_month 0 j0 hj1 (by omega) hj4 hj3
      rw [← simulate_path_eq] at he
      refine ⟨j0, by omega, by omega, ?_⟩
      unfold eventAt at he
      split_ifs at he with hE hR
      · exact Or.inl he
      · exact Or.inr (Or.inl he)
      · exact Or.inr (Or.inr ⟨_, _, he⟩)

/-- Witness for C9: the one-month configuration `wExitCfg` terminates at some
month between 1 and its horizon. -/
theorem C9_termination_witness :
    ∃ j, 1 ≤ j ∧ j ≤ wExitCfg.exit_month ∧
      (simulate_path wExitCfg wExitD = Outcome.default j ∨
       simulate_path wExitCfg wExitD = Outcome.refiFail j ∨
       ∃ fe ee, simulate_path wExitCfg wExitD = Outcome.exitO j fe ee) :=
  (C9_termination wExitCfg wExitD).2 (by decide) (by decide)

/-- C10: two trials with identical draws that differ only in the initial
equity have the same phase, revenue, interest, capitalized interest, paid
interest, net cash flow and principal at every month; the initial equity only
shifts the equity path by the constant difference `e2 - e1`. -/
theorem C10_noninterference (cfg : PFConfig) (d : Draws) (e1 e2 : ℚ) (m : ℕ) :
    (stateAfter { cfg with initial_equity := e2 } d m).principal
      = (stateAfter { cfg with initial_equity := e1 } d m).principal ∧
    phaseAt { cfg with initial_equity := e2 } d m
      = phaseAt { cfg with initial_equity := e1 } d m ∧
    revenueAt { cfg with initial_equity := e2 } d m
      = revenueAt { cfg with initial_equity := e1 } d m ∧
    interestAt { cfg with initial_equity := e2 } d m
      = interestAt { cfg with initial_equity := e1 } d m ∧
    capInterestAt { cfg with initial_equity := e2 } d m
      = capInterestAt { cfg with initial_equity := e1 } d m ∧
    paidInterestAt { cfg with initial_equity := e2 } d m
      = paidInterestAt { cfg with initial_equity := e1 } d m ∧
    netCashFlowAt { cfg with initial_equity := e2 } d m
      = netCashFlowAt { cfg with initial_equity := e1 } d m ∧
    (stateAfter { cfg with initial_equity := e2 } d m).equity
      - (stateAfter { cfg with initial_equity := e1 } d m).equity = e2 - e1 := by
  obtain ⟨hp, he⟩ := stateAfter_initial_equity cfg d e1 e2 m
  have hgcr : get_capitalized_ratio { cfg with initial_equity := e2 }
        (phaseAt { cfg with initial_equity := e2 } d m)
      = get_capitalized_ratio { cfg with initial_equity := e1 }
        (phaseAt { cfg with initial_equity := e1 } d m) := rfl
  have hint : interestAt { cfg with initial_equity := e2 } d m
      = interestAt { cfg with initial_equity := e1 } d m := by
    cases m with
    | zero => rfl
    | succ m =>
        simp only [interestAt]
        rw [(stateAfter_initial_equity cfg d e1 e2 m).1]
  have hpaid : paidInterestAt { cfg with initial_equity := e2 } d m
      = paidInterestAt { cfg with initial_equity := e1 } d m := by
    simp only [paidInterestAt, hint, hgcr]
  have hrev : revenueAt { cfg with initial_equity := e2 } d m
      = revenueAt { cfg with initial_equity := e1 } d m := rfl
  have hfc : PFConfig.monthly_fixed_cost { cfg with initial_equity := e2 }
      = PFConfig.monthly_fixed_cost { cfg with initial_equity := e1 } := rfl
  refine ⟨hp, rfl, hrev, hint, ?_, hpaid, ?_, by linarith⟩
  · simp only [capInterestAt, hint, hgcr]
  · simp only [netCashFlowAt, hrev, hfc, hpaid]
